import Mathlib

/-!
Shallow embedding of the metrics-and-alerting engine of the ibox data-analysis
backend, with theorems settling the frozen claims about it.

Conventions of the embedding:
* JS numbers are modelled as rationals (`ℚ`); timestamps as integers
  (milliseconds since epoch, `ℤ`).
* A field that may be `null`/`undefined` in JS is an `Option`.
* JS arrays are `List`s; a JS `Map`/`Set`/object used as a map is an
  association list or a function into `Option`, matching the observable
  get/set behaviour.
* Log statements have no observable effect and are dropped; alert `message`
  strings (pure formatting) are elided, the discriminating fields
  (`collectionId`, `type`, `severity`, `triggeredAt`) are kept.
* `Date.now()` / `new Date().toISOString()` are passed in as an explicit
  `now : ℤ` argument.
-/

/-! ## Metrics engine (`analyticsService`) -/

/-- A market event as consumed by the metrics engine
(`analyticsService.calculateMetrics` reads `price`, `type`, `quantity`,
and `filterEventsByWindow` reads `timestamp`). -/
structure MEvent where
  price : Option ℚ
  etype : Option String
  quantity : Option ℚ
  timestamp : ℤ
deriving Repr, DecidableEq

/-- The consolidated metrics record returned by `calculateMetrics`. -/
structure Metrics where
  priceChange : Option ℚ
  averagePrice : Option ℚ
  medianPrice : Option ℚ
  tradeVolume : ℚ
  buyCount : ℕ
  sellCount : ℕ
  liquidityRatio : Option ℚ
  eventCount : ℕ
deriving Repr, DecidableEq

/-- The record `calculateMetrics` returns when the event list is empty. -/
def emptyWindowMetrics : Metrics :=
  { priceChange := none
    averagePrice := none
    medianPrice := none
    tradeVolume := 0
    buyCount := 0
    sellCount := 0
    liquidityRatio := none
    eventCount := 0 }

/-- `events.filter((e) => e.price !== null && e.price !== undefined).map(parseFloat)`. -/
def eventPrices (events : List MEvent) : List ℚ :=
  events.filterMap (·.price)

/-- `Math.max(a, b)` on two numbers: the larger of the two. -/
def jsMax (a b : ℚ) : ℚ :=
  if a ≤ b then b else a

/-- `Math.max(...prices)` over a non-empty list given as head and tail. -/
def pricesMax (p0 : ℚ) (rest : List ℚ) : ℚ :=
  rest.foldl jsMax p0

/-- `events.reduce((sum, e) => sum + parseFloat(e.quantity || 0), 0)`. -/
def tradeVolumeOf (events : List MEvent) : ℚ :=
  events.foldl (fun sum e => sum + e.quantity.getD 0) 0

/-- The median branch of `calculateMetrics`: sort ascending
(`[...prices].sort((a, b) => a - b)`), take the middle element for odd
length, the mean of the two middle elements for even length.
(`getD _ 0` never hits its default: the indices are in range for the
non-empty lists this is applied to.) -/
def medianOf (ps : List ℚ) : ℚ :=
  let sorted := ps.insertionSort (· ≤ ·)
  let mid := sorted.length / 2
  if sorted.length % 2 ≠ 0 then sorted.getD mid 0
  else (sorted.getD (mid - 1) 0 + sorted.getD mid 0) / 2

/-- `analyticsService.calculateMetrics(events)` (the `window` argument of the
JS function is unused by the computation and omitted). -/
def calculateMetrics (events : List MEvent) : Metrics :=
  match events with
  | [] => emptyWindowMetrics
  | _ :: _ =>
    let prices := eventPrices events
    let buyEvents := (events.filter (fun e => e.etype = some "buy")).length
    let sellEvents := (events.filter (fun e => e.etype = some "sell")).length
    let totalEvents := events.length
    let tradeVolume := tradeVolumeOf events
    let priceStats : Option ℚ × Option ℚ × Option ℚ :=
      match prices with
      | [] => (none, none, none)
      | p0 :: rest =>
        let maxPrice := pricesMax p0 rest
        let priceChange : Option ℚ :=
          if p0 ≠ 0 then some ((maxPrice - p0) / p0 * 100) else none
        let averagePrice := some ((p0 :: rest).sum / (p0 :: rest).length)
        let medianPrice := some (medianOf (p0 :: rest))
        (priceChange, averagePrice, medianPrice)
    let liquidityRatio : Option ℚ :=
      if 0 < totalEvents then some (tradeVolume / totalEvents) else none
    { priceChange := priceStats.1
      averagePrice := priceStats.2.1
      medianPrice := priceStats.2.2
      tradeVolume := tradeVolume
      buyCount := buyEvents
      sellCount := sellEvents
      liquidityRatio := liquidityRatio
      eventCount := totalEvents }

/-- `analyticsService.filterEventsByWindow(events, windowMs)` at time `now`:
keeps events with `now - windowMs ≤ timestamp ≤ now`. -/
def filterEventsByWindow (events : List MEvent) (now windowMs : ℤ) : List MEvent :=
  events.filter (fun e => now - windowMs ≤ e.timestamp ∧ e.timestamp ≤ now)

/-- One window's result inside `computeMetricsForCollection`: the consolidated
metrics with `listingMetrics`/`purchaseMetrics` nested and, for the `24h`
window only, `priceChange24h`/`volumeChange24h`. -/
structure WindowMetrics where
  base : Metrics
  listingMetrics : Metrics
  purchaseMetrics : Metrics
  priceChange24h : Option ℚ
  volumeChange24h : Option ℚ
deriving Repr, DecidableEq

/-- The body of `computeMetricsForCollection`'s per-window loop:
filter both event streams to the window, compute the three metric records,
and attach the `24h`-only fields.  `priceChange24h` is set only when
`window === '24h'` and `metrics.priceChange !== null` (when `priceChange`
is `null` the field stays `undefined`, which is `none` either way);
`volumeChange24h` mirrors the purchase subset's `tradeVolume` (always a
number, so the `!== undefined` check always passes). -/
def windowMetricsFor (listingEvents purchaseEvents : List MEvent)
    (now : ℤ) (window : String) (windowMs : ℤ) : WindowMetrics :=
  let listingIn := filterEventsByWindow listingEvents now windowMs
  let purchaseIn := filterEventsByWindow purchaseEvents now windowMs
  let listingMetrics := calculateMetrics listingIn
  let purchaseMetrics := calculateMetrics purchaseIn
  let allEvents := listingIn ++ purchaseIn
  let metrics := calculateMetrics allEvents
  { base := metrics
    listingMetrics := listingMetrics
    purchaseMetrics := purchaseMetrics
    priceChange24h := if window = "24h" then metrics.priceChange else none
    volumeChange24h := if window = "24h" then some purchaseMetrics.tradeVolume else none }

/-- `TIME_WINDOWS`, in object-entry order. -/
def TIME_WINDOWS : List (String × ℤ) :=
  [("1h", 1 * 60 * 60 * 1000), ("6h", 6 * 60 * 60 * 1000),
   ("24h", 24 * 60 * 60 * 1000), ("72h", 72 * 60 * 60 * 1000)]

/-! ## Event Store and ingestion (`dataStore`, `ingestionService`) -/

/-- A listing-event payload handed to `ingestListingEvent`: the caller may or
may not supply `id`/`timestamp`; the object spread in `addListingEvent` lets
payload fields override the synthesized defaults. -/
structure ListingEventPayload where
  pid : Option String
  ptimestamp : Option ℤ
  price : Option ℚ
  quantity : Option ℚ
deriving Repr, DecidableEq

/-- A row of `dataStore.listingEvents[collectionId]`. -/
structure StoredListingEvent where
  eid : String
  collectionId : String
  timestamp : ℤ
  etype : String
  price : Option ℚ
  quantity : Option ℚ
deriving Repr, DecidableEq

/-- The row `dataStore.addListingEvent` pushes:
`{id: Date.now().toString(), collectionId, timestamp: now, type: 'listing',
...event}` — the payload's own `id`/`timestamp`, when present, override the
synthesized ones via the spread. -/
def mkStoredListingEvent (collectionId : String) (now : ℤ)
    (ev : ListingEventPayload) : StoredListingEvent :=
  { eid := ev.pid.getD (toString now)
    collectionId := collectionId
    timestamp := ev.ptimestamp.getD now
    etype := "listing"
    price := ev.price
    quantity := ev.quantity }

/-- `dataStore.listingEvents`: a map from collection id to its event array. -/
def ListingStore : Type := List (String × List StoredListingEvent)

/-- Reading `this.listingEvents[collectionId]` (`[]` when absent). -/
def storeGet (store : ListingStore) (cid : String) : List StoredListingEvent :=
  match store.find? (fun p => p.1 = cid) with
  | some p => p.2
  | none => []

/-- Writing `this.listingEvents[collectionId] = events`: replace the entry in
place, or create it when absent. -/
def storeSet : ListingStore → String → List StoredListingEvent → ListingStore
  | [], cid, evs => [(cid, evs)]
  | (c, es) :: rest, cid, evs =>
    if c = cid then (cid, evs) :: rest else (c, es) :: storeSet rest cid evs

/-- `dataStore.addListingEvent(collectionId, event)`: ensure the collection's
array exists, then unconditionally `push` the new row (there is no lookup of
an existing row by id). -/
def addListingEvent (store : ListingStore) (cid : String) (now : ℤ)
    (ev : ListingEventPayload) : ListingStore :=
  storeSet store cid (storeGet store cid ++ [mkStoredListingEvent cid now ev])

/-- `affectedCollections.add(collectionId)` on the ingestion service's JS
`Set`: a member is added at most once. -/
def dirtyAdd (dirty : List String) (cid : String) : List String :=
  if cid ∈ dirty then dirty else dirty ++ [cid]

/-- `ingestionService.ingestListingEvent(collectionId, eventData)`: store the
event and mark the collection dirty. -/
def ingestListingEvent (store : ListingStore) (dirty : List String)
    (cid : String) (now : ℤ) (ev : ListingEventPayload) :
    ListingStore × List String :=
  (addListingEvent store cid now ev, dirtyAdd dirty cid)

/-! ## Metrics Store (`analyticsRepository`) -/

/-- A row of the in-memory `analyticsMetrics` array. -/
structure MetricRow where
  rid : ℕ
  collectionId : String
  window : String
  timestamp : ℤ
  data : WindowMetrics
deriving DecidableEq

/-- The repository's module state: the `analyticsMetrics` array and the
`metricsId` counter. -/
structure AnalyticsStore where
  rows : List MetricRow
  nextId : ℕ
deriving DecidableEq

/-- The in-place update branch of `upsertMetrics`
(`analyticsMetrics[existingIndex] = metric`, keeping the old row's `id`):
replace the first row whose `(collectionId, window)` matches. -/
def replaceMetricRow (cid window : String) (now : ℤ) (d : WindowMetrics) :
    List MetricRow → List MetricRow
  | [] => []
  | m :: rest =>
    if m.collectionId = cid ∧ m.window = window then
      { rid := m.rid, collectionId := cid, window := window,
        timestamp := now, data := d } :: rest
    else m :: replaceMetricRow cid window now d rest

/-- `analyticsRepository.upsertMetrics(collectionId, window, metricsData)`:
`findIndex` the row with the same `(collectionId, window)`; when found,
overwrite it in place (keeping its `id`); otherwise push a new row with the
next `metricsId`. -/
def upsertMetrics (s : AnalyticsStore) (cid window : String) (now : ℤ)
    (d : WindowMetrics) : AnalyticsStore :=
  if s.rows.any (fun m => m.collectionId = cid ∧ m.window = window) then
    { s with rows := replaceMetricRow cid window now d s.rows }
  else
    { rows := s.rows ++ [{ rid := s.nextId + 1, collectionId := cid,
                           window := window, timestamp := now, data := d }]
      nextId := s.nextId + 1 }

/-- The `(collectionId, window)` key of a metrics row. -/
def metricKey (m : MetricRow) : String × String :=
  (m.collectionId, m.window)

/-- `computeMetricsForCollection` (the upsert side): fold the per-window loop
over `TIME_WINDOWS`, upserting each window's result. -/
def computeMetricsForCollection (listingEvents purchaseEvents : List MEvent)
    (cid : String) (now : ℤ) (s : AnalyticsStore) : AnalyticsStore :=
  TIME_WINDOWS.foldl
    (fun acc wp =>
      upsertMetrics acc cid wp.1 now
        (windowMetricsFor listingEvents purchaseEvents now wp.1 wp.2))
    s

/-! ## Retention sweeper (`dataStore.deleteFromCollections`,
`analyticsRepository.deleteOlderThan`, `cleanupJob`) -/

/-- A stored row as the sweeper sees it: an identity and the parsed
timestamp. `timestamp = none` models `new Date(entry.timestamp).getTime()`
being `NaN` (the `Number.isFinite` guard then retains the row). -/
structure SweepRow where
  rowId : ℕ
  timestamp : Option ℤ
deriving Repr, DecidableEq

/-- The sweeper's deletion test:
`Number.isFinite(timestamp) && timestamp < cutoffTime`. -/
def rowExpired (cutoff : ℤ) (r : SweepRow) : Bool :=
  match r.timestamp with
  | some t => t < cutoff
  | none => false

/-- `normalizeLimit(limit)`: a non-positive (or non-numeric) limit falls back
to `DEFAULT_BATCH_SIZE = 500`. -/
def normalizeLimit (limit : ℤ) : ℕ :=
  if limit ≤ 0 then 500 else limit.toNat

/-- The inner entry loop of `deleteFromCollections` for one collection:
entries are visited in order; once `deleted >= batchLimit` the rest are
retained wholesale; an expired entry is dropped and counted, any other is
retained. Returns the retained entries and the updated counter. -/
def sweepEntries (cutoff : ℤ) (limit : ℕ) :
    List SweepRow → ℕ → List SweepRow × ℕ
  | [], deleted => ([], deleted)
  | e :: rest, deleted =>
    if limit ≤ deleted then (e :: rest, deleted)
    else if rowExpired cutoff e then sweepEntries cutoff limit rest (deleted + 1)
    else
      (e :: (sweepEntries cutoff limit rest deleted).1,
       (sweepEntries cutoff limit rest deleted).2)

/-- The outer loop of `deleteFromCollections` over `Object.keys(collectionMap)`:
break once the batch limit is reached (later collections untouched), skip
empty entries, otherwise sweep that collection's entries in place. -/
def sweepCollections (cutoff : ℤ) (limit : ℕ) :
    List (String × List SweepRow) → ℕ → List (String × List SweepRow) × ℕ
  | [], deleted => ([], deleted)
  | (cid, entries) :: rest, deleted =>
    if limit ≤ deleted then ((cid, entries) :: rest, deleted)
    else if entries.isEmpty then
      ((cid, entries) :: (sweepCollections cutoff limit rest deleted).1,
       (sweepCollections cutoff limit rest deleted).2)
    else
      ((cid, (sweepEntries cutoff limit entries deleted).1) ::
         (sweepCollections cutoff limit rest
           (sweepEntries cutoff limit entries deleted).2).1,
       (sweepCollections cutoff limit rest
         (sweepEntries cutoff limit entries deleted).2).2)

/-- `deleteFromCollections(collectionMap, cutoffDate, limit)`:
`cutoff = none` models `resolveCutoffTime` returning a non-finite value
(delete nothing); otherwise run one bounded batch. Shared by
`deleteMarketSnapshotsOlderThan`, `deleteListingEventsOlderThan` and
`deletePurchaseEventsOlderThan`. -/
def deleteFromCollections (m : List (String × List SweepRow))
    (cutoff : Option ℤ) (limit : ℤ) : List (String × List SweepRow) × ℕ :=
  match cutoff with
  | none => (m, 0)
  | some c => sweepCollections c (normalizeLimit limit) m 0

/-- `analyticsRepository.deleteOlderThan`'s row loop: indices are walked from
the end of the array, so later rows are examined first; a row is spliced out
while `deleted < batchLimit` and its timestamp is `< cutoffTime`. -/
def sweepMetricsRows (cutoff : ℤ) (limit : ℕ) :
    List MetricRow → ℕ → List MetricRow × ℕ
  | [], deleted => ([], deleted)
  | m :: rest, deleted =>
    if limit ≤ (sweepMetricsRows cutoff limit rest deleted).2 then
      (m :: (sweepMetricsRows cutoff limit rest deleted).1,
       (sweepMetricsRows cutoff limit rest deleted).2)
    else if m.timestamp < cutoff then
      ((sweepMetricsRows cutoff limit rest deleted).1,
       (sweepMetricsRows cutoff limit rest deleted).2 + 1)
    else
      (m :: (sweepMetricsRows cutoff limit rest deleted).1,
       (sweepMetricsRows cutoff limit rest deleted).2)

/-- `analyticsRepository.deleteOlderThan(cutoffDate, limit)`. -/
def analyticsDeleteOlderThan (s : AnalyticsStore) (cutoff : Option ℤ)
    (limit : ℤ) : AnalyticsStore × ℕ :=
  match cutoff with
  | none => (s, 0)
  | some c =>
    ({ s with rows := (sweepMetricsRows c (normalizeLimit limit) s.rows 0).1 },
     (sweepMetricsRows c (normalizeLimit limit) s.rows 0).2)

/-- `MAX_BATCH_ITERATIONS` of `cleanupJob`. -/
def MAX_BATCH_ITERATIONS : ℕ := 1000

/-- `Number(removedRaw)` then
`Number.isFinite(removedNumber) && removedNumber > 0 ? removedNumber : 0`. -/
def normalizeRemoved (n : ℤ) : ℕ :=
  if 0 < n then n.toNat else 0

/-- The `while (true)` loop of `cleanupJob.processTable` over a stateful
`deleteBatch` (`step`), with `fuel = MAX_BATCH_ITERATIONS - iteration`:
call the batch, accumulate, stop when the batch removed fewer than
`batchSize` rows (or `batchSize <= 0`), or when the iteration cap is hit.
Returns (final state, totalDeleted, number of batch calls). -/
def processTableGo {σ : Type} (step : σ → σ × ℤ) (batchSize : ℤ) :
    ℕ → σ → ℕ → ℕ → σ × ℕ × ℕ
  | 0, s, total, calls => (s, total, calls)
  | fuel + 1, s, total, calls =>
    if batchSize ≤ 0 ∨ ((normalizeRemoved (step s).2 : ℤ)) < batchSize then
      ((step s).1, total + normalizeRemoved (step s).2, calls + 1)
    else if fuel = 0 then
      ((step s).1, total + normalizeRemoved (step s).2, calls + 1)
    else
      processTableGo step batchSize fuel (step s).1
        (total + normalizeRemoved (step s).2) (calls + 1)

/-- `cleanupJob.processTable(tableName, deleteBatch, batchSize)` (the table
name only feeds log lines). -/
def processTable {σ : Type} (step : σ → σ × ℤ) (batchSize : ℤ) (s : σ) :
    σ × ℕ × ℕ :=
  processTableGo step batchSize MAX_BATCH_ITERATIONS s 0 0

/-- The state reached after `n` calls of a stateful `deleteBatch`:
used to speak about what the `n`-th batch call returns. -/
def stepIterate {σ : Type} (step : σ → σ × ℤ) : ℕ → σ → σ
  | 0, s => s
  | n + 1, s => stepIterate step n (step s).1

/-! ## Alert evaluator (`alertService`) -/

/-- A triggered alert (`message`, a formatted string, elided). -/
structure AlertRec where
  collectionId : String
  atype : String
  severity : String
  triggeredAt : ℤ
deriving Repr, DecidableEq

/-- `DEFAULT_THRESHOLDS`. -/
structure Thresholds where
  priceDrop : ℚ
  volumeSpike : ℚ
  listingDepletion : ℚ

/-- The analytics object `evaluateAlerts` destructures. -/
structure AnalyticsInput where
  collectionId : Option String
  priceChange24h : Option ℚ
  volumeChange24h : Option ℚ
  listingCount : Option ℚ
  previousListingCount : Option ℚ

/-- The `alertCooldowns` JS `Map`, keyed by `` `${collectionId}:${alertType}` ``
(modelled as the pair). -/
def CooldownMap : Type := String × String → Option ℤ

/-- `alertCooldowns.set(key, now)`. -/
def setCooldown (m : CooldownMap) (k : String × String) (t : ℤ) : CooldownMap :=
  fun k' => if k' = k then some t else m k'

/-- `alertService.shouldThrottle(collectionId, alertType)`:
`!lastTriggered` is true for a missing entry and for a (falsy) stored `0`;
otherwise throttle iff `now - lastTriggered < COOLDOWN_WINDOW`. -/
def shouldThrottle (m : CooldownMap) (cid atype : String)
    (now cooldownWindow : ℤ) : Bool :=
  match m (cid, atype) with
  | none => false
  | some t0 => if t0 = 0 then false else now - t0 < cooldownWindow

/-- `alertService.recordTrigger(collectionId, alertType)` at time `now`. -/
def recordTrigger (m : CooldownMap) (cid atype : String) (now : ℤ) :
    CooldownMap :=
  setCooldown m (cid, atype) now

/-- One rule block of `evaluateAlerts`: when the rule's threshold condition
holds and the cooldown does not throttle, push the alert and record the
trigger; otherwise leave the state unchanged. -/
def applyRule (cid atype severity : String) (cond : Bool)
    (now cooldownWindow : ℤ) (st : List AlertRec × CooldownMap) :
    List AlertRec × CooldownMap :=
  if cond then
    if shouldThrottle st.2 cid atype now cooldownWindow then st
    else (st.1 ++ [⟨cid, atype, severity, now⟩],
          recordTrigger st.2 cid atype now)
  else st

/-- The price-drop trigger: `priceChange24h` present (not
`undefined`/`null`) and `< -DEFAULT_THRESHOLDS.priceDrop`. -/
def priceDropCond (th : Thresholds) (a : AnalyticsInput) : Bool :=
  match a.priceChange24h with
  | some pc => pc < -th.priceDrop
  | none => false

/-- The volume-spike trigger: `volumeChange24h` present and
`> DEFAULT_THRESHOLDS.volumeSpike`. -/
def volumeSpikeCond (th : Thresholds) (a : AnalyticsInput) : Bool :=
  match a.volumeChange24h with
  | some v => th.volumeSpike < v
  | none => false

/-- The listing-depletion trigger: both counts present,
`previousListingCount > 0`, and the depletion percentage above threshold. -/
def listingDepletionCond (th : Thresholds) (a : AnalyticsInput) : Bool :=
  match a.listingCount, a.previousListingCount with
  | some cur, some prev =>
    0 < prev ∧ th.listingDepletion < (prev - cur) / prev * 100
  | _, _ => false

/-- `alertService.evaluateAlerts(analytics, alertsRepository)`, the rule
phase: `if (!collectionId)` — a missing or (falsy) empty-string
`collectionId` yields no alerts; otherwise the three rules run in order,
each pushing at most one alert and recording its cooldown. Returns the
`triggeredAlerts` array and the updated cooldown map. -/
def evaluateAlerts (th : Thresholds) (cooldownWindow now : ℤ)
    (a : AnalyticsInput) (cds : CooldownMap) : List AlertRec × CooldownMap :=
  match a.collectionId with
  | none => ([], cds)
  | some cid =>
    if cid = "" then ([], cds) else
    let st1 := applyRule cid "price_drop" "warning" (priceDropCond th a)
      now cooldownWindow ([], cds)
    let st2 := applyRule cid "volume_spike" "info" (volumeSpikeCond th a)
      now cooldownWindow st1
    applyRule cid "listing_depletion" "critical" (listingDepletionCond th a)
      now cooldownWindow st2

/-- The persistence loop after the rules: each alert is persisted and
notified inside its own `try/catch`; a failure is logged and skipped, the
cooldown map is untouched. `createOk` tells which `alertsRepository.create`
calls succeed; the successfully persisted alerts are returned. -/
def persistAlerts (createOk : AlertRec → Bool) (alerts : List AlertRec) :
    List AlertRec :=
  alerts.filter createOk

/-- The whole of `evaluateAlerts` including the persistence loop:
(triggered alerts, final cooldown map, persisted alerts). -/
def evaluateAndDispatch (th : Thresholds) (cooldownWindow now : ℤ)
    (a : AnalyticsInput) (cds : CooldownMap) (createOk : AlertRec → Bool) :
    List AlertRec × CooldownMap × List AlertRec :=
  let r := evaluateAlerts th cooldownWindow now a cds
  (r.1, r.2, persistAlerts createOk r.1)

/-! ## Notification dispatcher (`webhookNotifier`, `alertService.notifyAlert`) -/

/-- What a run of `webhookNotifier.sendWithRetry` did: how many POSTs were
attempted, the backoff delays slept before each retry (in order), and
whether the last attempt succeeded. -/
structure RetryTrace where
  attempts : ℕ
  delays : List ℤ
  ok : Bool
deriving Repr, DecidableEq

/-- `sendWithRetry(url, payload, retries)`: `outcomes n` tells whether the
`n`-th POST succeeds; on failure with `retries < MAX_RETRIES` sleep
`INITIAL_BACKOFF_MS * 2 ** retries` and recurse, else log and rethrow.
`remaining = maxRetries - retries`. -/
def sendWithRetryGo (outcomes : ℕ → Bool) (baseBackoff : ℤ) :
    ℕ → ℕ → RetryTrace
  | attempt, remaining =>
    if outcomes attempt then { attempts := attempt + 1, delays := [], ok := true }
    else
      match remaining with
      | 0 => { attempts := attempt + 1, delays := [], ok := false }
      | r + 1 =>
        let rest := sendWithRetryGo outcomes baseBackoff (attempt + 1) r
        { attempts := rest.attempts
          delays := baseBackoff * 2 ^ attempt :: rest.delays
          ok := rest.ok }

/-- `sendWithRetry(url, payload)` from the top (`retries = 0`). -/
def sendWithRetry (outcomes : ℕ → Bool) (maxRetries : ℕ) (baseBackoff : ℤ) :
    RetryTrace :=
  sendWithRetryGo outcomes baseBackoff 0 maxRetries

/-- `webhookNotifier.send(alert)`: awaits `sendWithRetry` and, on failure,
logs and rethrows — the error escapes `send`. -/
def webhookNotifierSend (trace : RetryTrace) : Except Unit Unit :=
  if trace.ok then .ok () else .error ()

/-- `Promise.all` over the notifier results: the first rejection rejects the
whole. -/
def promiseAll : List (Except Unit Unit) → Except Unit Unit
  | [] => .ok ()
  | .ok _ :: rest => promiseAll rest
  | .error e :: _ => .error e

/-- `alertService.notifyAlert(alert)`: `await Promise.all(notifiers)` inside
`try/catch` — a rejection is logged and swallowed, so `notifyAlert` itself
never rethrows to the evaluator. -/
def notifyAlert (results : List (Except Unit Unit)) : Except Unit Unit :=
  match promiseAll results with
  | .error _ => .ok ()
  | .ok _ => .ok ()

/-- The repository's initial module state (`analyticsMetrics = []`,
`metricsId = 0`). -/
def emptyAnalyticsStore : AnalyticsStore :=
  { rows := [], nextId := 0 }

/-- A sequence of `upsertMetrics(collectionId, window, metricsData)` calls
applied in order (each entry carries its call time). -/
def applyUpserts (ops : List (String × String × ℤ × WindowMetrics))
    (s : AnalyticsStore) : AnalyticsStore :=
  ops.foldl (fun acc o => upsertMetrics acc o.1 o.2.1 o.2.2.1 o.2.2.2) s

/-! ## Theorems -/

-- Spec §8 "window correctness": `[{price:100, qty:1}, {price:150, qty:2}]`
-- yields `priceChange=50, averagePrice=125, medianPrice=125, tradeVolume=3`.
example :
    calculateMetrics
      [⟨some 100, none, some 1, -30⟩, ⟨some 150, none, some 2, -10⟩] =
    { priceChange := some 50
      averagePrice := some 125
      medianPrice := some 125
      tradeVolume := 3
      buyCount := 0
      sellCount := 0
      liquidityRatio := some (3 / 2)
      eventCount := 2 } := by
  simp only [calculateMetrics, eventPrices, pricesMax, tradeVolumeOf, medianOf]
  norm_num [jsMax, List.filterMap, List.filter, List.insertionSort, List.orderedInsert]
  refine ⟨?_, ?_⟩ <;> decide

theorem jsMax_eq_or (a b : ℚ) : jsMax a b = a ∨ jsMax a b = b := by
  unfold jsMax; split <;> simp

theorem le_jsMax_left (a b : ℚ) : a ≤ jsMax a b := by
  unfold jsMax; split
  · assumption
  · exact le_refl a

theorem le_jsMax_right (a b : ℚ) : b ≤ jsMax a b := by
  unfold jsMax; split
  · exact le_refl b
  · exact le_of_not_le (by assumption)

theorem pricesMax_cons (p0 b : ℚ) (rest : List ℚ) :
    pricesMax p0 (b :: rest) = pricesMax (jsMax p0 b) rest := rfl

theorem pricesMax_mem (p0 : ℚ) (rest : List ℚ) :
    pricesMax p0 rest ∈ p0 :: rest := by
  induction rest generalizing p0 with
  | nil => simp [pricesMax]
  | cons b rest ih =>
    rw [pricesMax_cons]
    rcases List.mem_cons.mp (ih (jsMax p0 b)) with h | h
    · rcases jsMax_eq_or p0 b with h2 | h2
      · rw [h, h2]; exact List.mem_cons_self _ _
      · rw [h, h2]; exact List.mem_cons_of_mem _ (List.mem_cons_self _ _)
    · exact List.mem_cons_of_mem _ (List.mem_cons_of_mem _ h)

theorem le_pricesMax (p0 : ℚ) (rest : List ℚ) :
    ∀ q ∈ p0 :: rest, q ≤ pricesMax p0 rest := by
  induction rest generalizing p0 with
  | nil =>
    intro q hq
    rw [List.mem_singleton] at hq
    simp [pricesMax, hq]
  | cons b rest ih =>
    intro q hq
    rw [pricesMax_cons]
    have hhead : jsMax p0 b ≤ pricesMax (jsMax p0 b) rest :=
      ih (jsMax p0 b) (jsMax p0 b) (List.mem_cons_self _ _)
    rcases List.mem_cons.mp hq with h | h
    · rw [h]; exact le_trans (le_jsMax_left p0 b) hhead
    · rcases List.mem_cons.mp h with h2 | h2
      · rw [h2]; exact le_trans (le_jsMax_right p0 b) hhead
      · exact ih (jsMax p0 b) q (List.mem_cons_of_mem _ h2)

theorem calculateMetrics_priceChange_eq (e : MEvent) (es : List MEvent) :
    (calculateMetrics (e :: es)).priceChange =
      match eventPrices (e :: es) with
      | [] => none
      | p0 :: rest =>
        if p0 ≠ 0 then some ((pricesMax p0 rest - p0) / p0 * 100) else none := by
  cases h : eventPrices (e :: es) with
  | nil => simp [calculateMetrics, h]
  | cons p0 rest => simp [calculateMetrics, h]

/-- C10: when no events fall inside the window, the computed metric is
exactly `{priceChange: null, averagePrice: null, medianPrice: null,
tradeVolume: 0, buyCount: 0, sellCount: 0, liquidityRatio: null,
eventCount: 0}` — the null-valued fields are `null`, not `0`. -/
theorem calculateMetrics_empty_window (events : List MEvent) (now windowMs : ℤ)
    (h : filterEventsByWindow events now windowMs = []) :
    calculateMetrics (filterEventsByWindow events now windowMs) =
      { priceChange := none, averagePrice := none, medianPrice := none,
        tradeVolume := 0, buyCount := 0, sellCount := 0,
        liquidityRatio := none, eventCount := 0 } := by
  rw [h]; rfl

theorem calculateMetrics_empty_window_witness :
    filterEventsByWindow [⟨some 100, none, some 1, -999⟩] 0 10 = [] ∧
    calculateMetrics (filterEventsByWindow [⟨some 100, none, some 1, -999⟩] 0 10) =
      { priceChange := none, averagePrice := none, medianPrice := none,
        tradeVolume := 0, buyCount := 0, sellCount := 0,
        liquidityRatio := none, eventCount := 0 } :=
  ⟨by decide, calculateMetrics_empty_window _ 0 10 (by decide)⟩

/-- C3: for every non-empty list of in-window events with at least one
non-null price, `priceChange` is `(max(prices) - prices[0]) / prices[0] * 100`
(the maximum characterised as an upper bound attained in the list); it is
`null` — never `Infinity`/`NaN` — when the first price is `0` or when no
prices exist. -/
theorem calculateMetrics_zero_division_guard (events : List MEvent)
    (hne : events ≠ []) :
    (∀ p0 rest, eventPrices events = p0 :: rest →
      (p0 ≠ 0 → ∃ m, m ∈ eventPrices events ∧
        (∀ q ∈ eventPrices events, q ≤ m) ∧
        (calculateMetrics events).priceChange = some ((m - p0) / p0 * 100)) ∧
      (p0 = 0 → (calculateMetrics events).priceChange = none)) ∧
    (eventPrices events = [] → (calculateMetrics events).priceChange = none) := by
  match events, hne with
  | e :: es, _ =>
    constructor
    · intro p0 rest hp
      constructor
      · intro hp0
        refine ⟨pricesMax p0 rest, ?_, ?_, ?_⟩
        · rw [hp]; exact pricesMax_mem p0 rest
        · rw [hp]; exact le_pricesMax p0 rest
        · rw [calculateMetrics_priceChange_eq, hp]
          simp [hp0]
      · intro hp0
        rw [calculateMetrics_priceChange_eq, hp]
        simp [hp0]
    · intro hp
      rw [calculateMetrics_priceChange_eq, hp]

theorem calculateMetrics_zero_division_guard_witness :
    (([⟨some 0, none, none, 0⟩, ⟨some 150, none, none, 0⟩] : List MEvent) ≠ []) ∧
    eventPrices [⟨some 0, none, none, 0⟩, ⟨some 150, none, none, 0⟩] = 0 :: [150] ∧
    (calculateMetrics [⟨some 0, none, none, 0⟩, ⟨some 150, none, none, 0⟩]).priceChange
      = none :=
  ⟨by decide, by decide,
    ((calculateMetrics_zero_division_guard _ (by decide)).1 0 [150] (by decide)).2 rfl⟩

theorem calculateMetrics_priceChange_of_prices (events : List MEvent)
    (p0 : ℚ) (rest : List ℚ) (hp : eventPrices events = p0 :: rest)
    (h0 : p0 ≠ 0) :
    (calculateMetrics events).priceChange =
      some ((pricesMax p0 rest - p0) / p0 * 100) := by
  cases events with
  | nil => simp [eventPrices] at hp
  | cons e es =>
    rw [calculateMetrics_priceChange_eq, hp]
    simp [h0]

theorem applyRule_mem (cid ty sev : String) (cond : Bool) (now cw : ℤ)
    (st : List AlertRec × CooldownMap) :
    ∀ al ∈ (applyRule cid ty sev cond now cw st).1, al ∈ st.1 ∨ al.atype = ty := by
  intro al hal
  unfold applyRule at hal
  split at hal
  · split at hal
    · exact Or.inl hal
    · rcases List.mem_append.mp hal with h | h
      · exact Or.inl h
      · rw [List.mem_singleton] at h; right; rw [h]
  · exact Or.inl hal

theorem evaluateAlerts_no_price_drop (th : Thresholds) (cw now : ℤ)
    (a : AnalyticsInput) (cds : CooldownMap)
    (hcond : priceDropCond th a = false) :
    ∀ al ∈ (evaluateAlerts th cw now a cds).1, al.atype ≠ "price_drop" := by
  intro al hal
  cases h : a.collectionId with
  | none => unfold evaluateAlerts at hal; rw [h] at hal; simp at hal
  | some cid =>
    by_cases hcid : cid = ""
    · have he0 : evaluateAlerts th cw now a cds = ([], cds) := by
        unfold evaluateAlerts; rw [h]; simp [hcid]
      rw [he0] at hal
      simp at hal
    · have he : evaluateAlerts th cw now a cds =
          applyRule cid "listing_depletion" "critical" (listingDepletionCond th a)
            now cw
            (applyRule cid "volume_spike" "info" (volumeSpikeCond th a) now cw
              (applyRule cid "price_drop" "warning" (priceDropCond th a) now cw
                ([], cds))) := by
        unfold evaluateAlerts; rw [h]; simp [hcid]
      rw [he, hcond] at hal
      have e : applyRule cid "price_drop" "warning" false now cw ([], cds)
          = ([], cds) := rfl
      rw [e] at hal
      rcases applyRule_mem _ _ _ _ _ _ _ al hal with h1 | h1
      · rcases applyRule_mem _ _ _ _ _ _ _ al h1 with h2 | h2
        · simp at h2
        · rw [h2]; decide
      · rw [h1]; decide

theorem priceDropCond_false_of_nonneg (th : Thresholds) (a : AnalyticsInput)
    (pc : ℚ) (ha : a.priceChange24h = some pc) (hpc : 0 ≤ pc)
    (hth : 0 < th.priceDrop) : priceDropCond th a = false := by
  unfold priceDropCond
  rw [ha]
  simp only [decide_eq_false_iff_not]
  intro hlt
  linarith

/-- C4: when the in-window prices are all non-negative and the first price is
positive, the 24h `priceChange24h` is defined and non-negative (the formula
compares the maximum against the first price), so the `price_drop` rule
(`priceChange24h < -threshold` for a positive threshold) never fires on such
a metric. -/
theorem priceChange24h_nonneg_price_drop_never_fires
    (listing purchase : List MEvent) (now windowMs : ℤ) (p0 : ℚ) (rest : List ℚ)
    (hp : eventPrices (filterEventsByWindow listing now windowMs ++
            filterEventsByWindow purchase now windowMs) = p0 :: rest)
    (hnonneg : ∀ q ∈ p0 :: rest, 0 ≤ q) (hpos : 0 < p0) :
    ∃ pc, (windowMetricsFor listing purchase now "24h" windowMs).priceChange24h
            = some pc ∧ 0 ≤ pc ∧
      ∀ (th : Thresholds) (cw nowE : ℤ) (cds : CooldownMap) (a : AnalyticsInput),
        0 < th.priceDrop → a.priceChange24h = some pc →
        ∀ al ∈ (evaluateAlerts th cw nowE a cds).1, al.atype ≠ "price_drop" := by
  have hmax : p0 ≤ pricesMax p0 rest :=
    le_pricesMax p0 rest p0 (List.mem_cons_self _ _)
  have hpc : (0 : ℚ) ≤ (pricesMax p0 rest - p0) / p0 * 100 := by
    have h1 : (0 : ℚ) ≤ pricesMax p0 rest - p0 := by linarith
    have h2 : (0 : ℚ) ≤ (pricesMax p0 rest - p0) / p0 :=
      div_nonneg h1 (le_of_lt hpos)
    linarith
  refine ⟨(pricesMax p0 rest - p0) / p0 * 100, ?_, hpc, ?_⟩
  · -- the 24h field mirrors the consolidated priceChange
    have h24 : (windowMetricsFor listing purchase now "24h" windowMs).priceChange24h
        = (calculateMetrics (filterEventsByWindow listing now windowMs ++
            filterEventsByWindow purchase now windowMs)).priceChange := by
      unfold windowMetricsFor
      simp only [eq_self_iff_true, if_true]
    rw [h24]
    exact calculateMetrics_priceChange_of_prices _ p0 rest hp (ne_of_gt hpos)
  · intro th cw nowE cds a hth ha
    exact evaluateAlerts_no_price_drop th cw nowE a cds
      (priceDropCond_false_of_nonneg th a _ ha hpc hth)

theorem priceChange24h_nonneg_witness :
    eventPrices (filterEventsByWindow [⟨some 100, none, none, 0⟩] 0 10 ++
        filterEventsByWindow [⟨some 150, none, none, 0⟩] 0 10) = 100 :: [150] ∧
    (∀ q ∈ (100 : ℚ) :: [150], 0 ≤ q) ∧ (0 : ℚ) < 100 ∧
    (∃ pc, (windowMetricsFor [⟨some 100, none, none, 0⟩]
              [⟨some 150, none, none, 0⟩] 0 "24h" 10).priceChange24h
            = some pc ∧ 0 ≤ pc ∧
      ∀ (th : Thresholds) (cw nowE : ℤ) (cds : CooldownMap) (a : AnalyticsInput),
        0 < th.priceDrop → a.priceChange24h = some pc →
        ∀ al ∈ (evaluateAlerts th cw nowE a cds).1, al.atype ≠ "price_drop") :=
  ⟨by decide, by decide, by decide,
    priceChange24h_nonneg_price_drop_never_fires _ _ 0 10 100 [150]
      (by decide) (by decide) (by decide)⟩

theorem applyRule_cooldown_invariant (cid ty : String) (t0 now cw : ℤ)
    (h0 : t0 ≠ 0) (hlt : now - t0 < cw)
    (cid' ty' sev : String) (cond : Bool)
    (st : List AlertRec × CooldownMap)
    (hcd : st.2 (cid, ty) = some t0)
    (hno : ∀ al ∈ st.1, ¬(al.collectionId = cid ∧ al.atype = ty)) :
    (applyRule cid' ty' sev cond now cw st).2 (cid, ty) = some t0 ∧
    ∀ al ∈ (applyRule cid' ty' sev cond now cw st).1,
      ¬(al.collectionId = cid ∧ al.atype = ty) := by
  unfold applyRule
  split
  · split
    · exact ⟨hcd, hno⟩
    · rename_i ht
      have hkey : ¬(cid' = cid ∧ ty' = ty) := by
        rintro ⟨rfl, rfl⟩
        apply ht
        have hth : shouldThrottle st.2 cid' ty' now cw = true := by
          unfold shouldThrottle
          rw [hcd]
          simp [h0, hlt]
        rw [hth]
      have hne : ((cid, ty) : String × String) ≠ (cid', ty') := by
        intro he
        exact hkey ⟨(congrArg Prod.fst he).symm, (congrArg Prod.snd he).symm⟩
      constructor
      · show recordTrigger st.2 cid' ty' now (cid, ty) = some t0
        unfold recordTrigger setCooldown
        rw [if_neg hne]
        exact hcd
      · intro al hal
        rcases List.mem_append.mp hal with hm | hm
        · exact hno al hm
        · rw [List.mem_singleton] at hm
          rw [hm]
          rintro ⟨hc1, hc2⟩
          exact hkey ⟨hc1, hc2⟩
  · exact ⟨hcd, hno⟩

/-- C2: an alert type under cooldown is suppressed — if `(collectionId, type)`
was last triggered at a (positive epoch) time `t0` and `now - t0 <
cooldownWindow`, the evaluation emits no alert of that type for that
collection (hence nothing to persist or notify for it); and once the
cooldown has elapsed the same alert fires again (concrete run: a
`price_drop` re-fires exactly 60 minutes after `t0`). -/
theorem cooldown_suppression :
    (∀ (th : Thresholds) (cw now t0 : ℤ) (a : AnalyticsInput)
        (cds : CooldownMap) (cid ty : String),
       cds (cid, ty) = some t0 → 0 < t0 → now - t0 < cw →
       ∀ al ∈ (evaluateAlerts th cw now a cds).1,
         ¬(al.collectionId = cid ∧ al.atype = ty)) ∧
    (evaluateAlerts ⟨10, 50, 30⟩ 3600000 (1000 + 3600000)
        ⟨some "c", some (-20), none, none, none⟩
        (fun k => if k = ("c", "price_drop") then some 1000 else none)).1 =
      [⟨"c", "price_drop", "warning", 1000 + 3600000⟩] := by
  constructor
  · intro th cw now t0 a cds cid ty hcd h0 hlt al hal
    cases h : a.collectionId with
    | none =>
      unfold evaluateAlerts at hal; rw [h] at hal; simp at hal
    | some c =>
      by_cases hcid : c = ""
      · have he0 : evaluateAlerts th cw now a cds = ([], cds) := by
          unfold evaluateAlerts; rw [h]; simp [hcid]
        rw [he0] at hal
        simp at hal
      · have he : evaluateAlerts th cw now a cds =
            applyRule c "listing_depletion" "critical" (listingDepletionCond th a)
              now cw
              (applyRule c "volume_spike" "info" (volumeSpikeCond th a) now cw
                (applyRule c "price_drop" "warning" (priceDropCond th a) now cw
                  ([], cds))) := by
          unfold evaluateAlerts; rw [h]; simp [hcid]
        rw [he] at hal
        have s1 := applyRule_cooldown_invariant cid ty t0 now cw (ne_of_gt h0) hlt
          c "price_drop" "warning" (priceDropCond th a) ([], cds) hcd
          (by intro al h'; simp at h')
        have s2 := applyRule_cooldown_invariant cid ty t0 now cw (ne_of_gt h0) hlt
          c "volume_spike" "info" (volumeSpikeCond th a) _ s1.1 s1.2
        have s3 := applyRule_cooldown_invariant cid ty t0 now cw (ne_of_gt h0) hlt
          c "listing_depletion" "critical" (listingDepletionCond th a) _ s2.1 s2.2
        exact s3.2 al hal
  · decide

theorem cooldown_suppression_witness :
    ((fun k => if k = ("c", "price_drop") then some 1000 else none) :
        CooldownMap) ("c", "price_drop") = some 1000 ∧
    (0 : ℤ) < 1000 ∧ (1000 + 1800000 : ℤ) - 1000 < 3600000 ∧
    ∀ al ∈ (evaluateAlerts ⟨10, 50, 30⟩ 3600000 (1000 + 1800000)
        ⟨some "c", some (-20), none, none, none⟩
        (fun k => if k = ("c", "price_drop") then some 1000 else none)).1,
      ¬(al.collectionId = "c" ∧ al.atype = "price_drop") :=
  ⟨rfl, by decide, by decide,
    cooldown_suppression.1 ⟨10, 50, 30⟩ 3600000 (1000 + 1800000) 1000
      ⟨some "c", some (-20), none, none, none⟩
      (fun k => if k = ("c", "price_drop") then some 1000 else none)
      "c" "price_drop" rfl (by decide) (by decide)⟩

theorem applyRule_records_now (cid' ty' sev : String) (cond : Bool)
    (now cw : ℤ) (st : List AlertRec × CooldownMap)
    (h : ∀ al ∈ st.1, st.2 (al.collectionId, al.atype) = some now) :
    ∀ al ∈ (applyRule cid' ty' sev cond now cw st).1,
      (applyRule cid' ty' sev cond now cw st).2 (al.collectionId, al.atype)
        = some now := by
  unfold applyRule
  split
  · split
    · exact h
    · intro al hal
      rcases List.mem_append.mp hal with hm | hm
      · show recordTrigger st.2 cid' ty' now (al.collectionId, al.atype)
          = some now
        unfold recordTrigger setCooldown
        split
        · rfl
        · exact h al hm
      · rw [List.mem_singleton] at hm
        rw [hm]
        show recordTrigger st.2 cid' ty' now (cid', ty') = some now
        unfold recordTrigger setCooldown
        simp
  · exact h

/-- C7: the cooldown for an alert that passed the throttle check is recorded
during rule evaluation, before the persistence/notification loop runs: the
final cooldown map does not depend on which `alertsRepository.create` calls
succeed, and every triggered alert's `(collectionId, type)` maps to `now` in
it — a persistence or delivery failure leaves the recorded cooldown in
place. -/
theorem cooldown_recorded_before_persistence
    (th : Thresholds) (cw now : ℤ) (a : AnalyticsInput) (cds : CooldownMap)
    (createOk createOk' : AlertRec → Bool) :
    (evaluateAndDispatch th cw now a cds createOk).2.1 =
      (evaluateAndDispatch th cw now a cds createOk').2.1 ∧
    ∀ al ∈ (evaluateAndDispatch th cw now a cds createOk).1,
      (evaluateAndDispatch th cw now a cds createOk).2.1
        (al.collectionId, al.atype) = some now := by
  constructor
  · rfl
  · show ∀ al ∈ (evaluateAlerts th cw now a cds).1,
      (evaluateAlerts th cw now a cds).2 (al.collectionId, al.atype) = some now
    cases h : a.collectionId with
    | none =>
      unfold evaluateAlerts
      rw [h]
      intro al hal
      simp at hal
    | some c =>
      by_cases hcid : c = ""
      · have he0 : evaluateAlerts th cw now a cds = ([], cds) := by
          unfold evaluateAlerts; rw [h]; simp [hcid]
        rw [he0]
        intro al hal
        simp at hal
      · have he : evaluateAlerts th cw now a cds =
            applyRule c "listing_depletion" "critical" (listingDepletionCond th a)
              now cw
              (applyRule c "volume_spike" "info" (volumeSpikeCond th a) now cw
                (applyRule c "price_drop" "warning" (priceDropCond th a) now cw
                  ([], cds))) := by
          unfold evaluateAlerts; rw [h]; simp [hcid]
        rw [he]
        apply applyRule_records_now
        apply applyRule_records_now
        apply applyRule_records_now
        intro al hal
        simp at hal

theorem cooldown_recorded_witness :
    ((evaluateAndDispatch ⟨10, 50, 30⟩ 3600000 999999
        ⟨some "c", some (-20), none, none, none⟩ (fun _ => none)
        (fun _ => false)).2.1 =
      (evaluateAndDispatch ⟨10, 50, 30⟩ 3600000 999999
        ⟨some "c", some (-20), none, none, none⟩ (fun _ => none)
        (fun _ => true)).2.1) ∧
    (evaluateAndDispatch ⟨10, 50, 30⟩ 3600000 999999
        ⟨some "c", some (-20), none, none, none⟩ (fun _ => none)
        (fun _ => false)).2.1 ("c", "price_drop") = some 999999 :=
  ⟨(cooldown_recorded_before_persistence ⟨10, 50, 30⟩ 3600000 999999
      ⟨some "c", some (-20), none, none, none⟩ (fun _ => none)
      (fun _ => false) (fun _ => true)).1,
   (cooldown_recorded_before_persistence ⟨10, 50, 30⟩ 3600000 999999
      ⟨some "c", some (-20), none, none, none⟩ (fun _ => none)
      (fun _ => false) (fun _ => false)).2
     ⟨"c", "price_drop", "warning", 999999⟩ (by decide)⟩

theorem replaceMetricRow_map_key (cid w : String) (now : ℤ) (d : WindowMetrics)
    (rows : List MetricRow) :
    (replaceMetricRow cid w now d rows).map metricKey = rows.map metricKey := by
  induction rows with
  | nil => rfl
  | cons m rest ih =>
    unfold replaceMetricRow
    split
    · rename_i hm
      simp [metricKey, hm.1, hm.2]
    · simp [metricKey, ih]

theorem length_filter_key_le_one (rows : List MetricRow)
    (hn : (rows.map metricKey).Nodup) (cid w : String) :
    (rows.filter (fun m => m.collectionId = cid ∧ m.window = w)).length ≤ 1 := by
  induction rows with
  | nil => simp
  | cons m rest ih =>
    rw [List.map_cons, List.nodup_cons] at hn
    obtain ⟨hnotin, hrest⟩ := hn
    by_cases hm : m.collectionId = cid ∧ m.window = w
    · have hempty : rest.filter (fun m => m.collectionId = cid ∧ m.window = w)
          = [] := by
        rw [List.filter_eq_nil_iff]
        intro x hx
        simp only [decide_eq_true_eq, not_and]
        intro h1 h2
        apply hnotin
        rw [List.mem_map]
        exact ⟨x, hx, by simp [metricKey, h1, h2, hm.1, hm.2]⟩
      rw [List.filter_cons_of_pos (by simp [hm.1, hm.2]), hempty]
      simp
    · simp only [List.filter_cons, decide_eq_true_eq, hm, if_false]
      exact ih hrest

theorem upsertMetrics_nodup (s : AnalyticsStore) (cid w : String) (now : ℤ)
    (d : WindowMetrics) (h : (s.rows.map metricKey).Nodup) :
    ((upsertMetrics s cid w now d).rows.map metricKey).Nodup := by
  unfold upsertMetrics
  split
  · show ((replaceMetricRow cid w now d s.rows).map metricKey).Nodup
    rw [replaceMetricRow_map_key]
    exact h
  · rename_i hany
    rw [List.any_eq_true] at hany
    push_neg at hany
    show ((s.rows ++ [_]).map metricKey).Nodup
    rw [List.map_append]
    refine List.Nodup.append h (by simp) ?_
    intro k hk1 hk2
    simp only [List.map_cons, List.map_nil, List.mem_singleton] at hk2
    rw [List.mem_map] at hk1
    obtain ⟨m, hm, hkey⟩ := hk1
    apply hany m hm
    rw [hk2] at hkey
    have h1 := congrArg Prod.fst hkey
    have h2 := congrArg Prod.snd hkey
    simp [metricKey] at h1 h2
    simp [h1, h2]

theorem applyUpserts_nodup (ops : List (String × String × ℤ × WindowMetrics))
    (s : AnalyticsStore) (h : (s.rows.map metricKey).Nodup) :
    ((applyUpserts ops s).rows.map metricKey).Nodup := by
  induction ops generalizing s with
  | nil => exact h
  | cons op rest ih =>
    exact ih _ (upsertMetrics_nodup s op.1 op.2.1 op.2.2.1 op.2.2.2 h)

/-- C5: after any sequence of `upsertMetrics` calls starting from the empty
store, the `(collectionId, window)` keys of the stored rows are pairwise
distinct — at most one row per key; an upsert for an existing key overwrites
in place instead of appending. -/
theorem upsertMetrics_unique_per_key
    (ops : List (String × String × ℤ × WindowMetrics)) :
    ((applyUpserts ops emptyAnalyticsStore).rows.map metricKey).Nodup ∧
    ∀ cid w, ((applyUpserts ops emptyAnalyticsStore).rows.filter
        (fun m => m.collectionId = cid ∧ m.window = w)).length ≤ 1 := by
  have hn := applyUpserts_nodup ops emptyAnalyticsStore (by simp [emptyAnalyticsStore])
  exact ⟨hn, fun cid w => length_filter_key_le_one _ hn cid w⟩

theorem sweepEntries_count_fresh (c : ℤ) (limit : ℕ) (entries : List SweepRow)
    (d : ℕ) (r : SweepRow) (hr : rowExpired c r = false) :
    ((sweepEntries c limit entries d).1).count r = entries.count r := by
  induction entries generalizing d with
  | nil => rfl
  | cons e rest ih =>
    unfold sweepEntries
    by_cases h1 : limit ≤ d
    · rw [if_pos h1]
    · rw [if_neg h1]
      by_cases h2 : rowExpired c e = true
      · rw [if_pos h2]
        have hne : r ≠ e := by
          intro he
          rw [he, h2] at hr
          cases hr
        rw [ih (d + 1)]
        simp [List.count_cons, hne]
      · rw [if_neg h2]
        simp only [List.count_cons]
        rw [ih d]

theorem sweepCollections_fresh (c : ℤ) (limit : ℕ)
    (m : List (String × List SweepRow)) (d : ℕ) :
    List.Forall₂
      (fun p q => p.1 = q.1 ∧ ∀ r, rowExpired c r = false →
        q.2.count r = p.2.count r)
      m (sweepCollections c limit m d).1 := by
  induction m generalizing d with
  | nil => exact List.Forall₂.nil
  | cons p rest ih =>
    obtain ⟨cid, entries⟩ := p
    unfold sweepCollections
    by_cases h1 : limit ≤ d
    · rw [if_pos h1]
      exact List.forall₂_same.mpr (fun x _ => ⟨rfl, fun r _ => rfl⟩)
    · rw [if_neg h1]
      by_cases h2 : entries.isEmpty = true
      · rw [if_pos h2]
        exact List.Forall₂.cons ⟨rfl, fun r _ => rfl⟩ (ih _)
      · rw [if_neg h2]
        exact List.Forall₂.cons
          ⟨rfl, fun r hr => sweepEntries_count_fresh c limit entries d r hr⟩
          (ih _)

theorem sweepMetricsRows_count_fresh (c : ℤ) (limit : ℕ)
    (rows : List MetricRow) (d : ℕ) (row : MetricRow)
    (hfresh : ¬ row.timestamp < c) :
    ((sweepMetricsRows c limit rows d).1).count row = rows.count row := by
  induction rows generalizing d with
  | nil => rfl
  | cons m rest ih =>
    unfold sweepMetricsRows
    by_cases h1 : limit ≤ (sweepMetricsRows c limit rest d).2
    · rw [if_pos h1]
      simp only [List.count_cons]
      rw [ih d]
    · rw [if_neg h1]
      by_cases h2 : m.timestamp < c
      · rw [if_pos h2]
        have hne : row ≠ m := by
          intro he
          rw [he] at hfresh
          exact hfresh h2
        rw [ih d]
        simp [List.count_cons, hne]
      · rw [if_neg h2]
        simp only [List.count_cons]
        rw [ih d]

/-- C6: the retention sweep never removes a row whose timestamp is at or
after the cutoff: across the event-table sweeper (`deleteFromCollections`,
shared by snapshots, listing events and purchase events) and the analytics
sweeper (`deleteOlderThan`), every such row keeps its multiplicity; rows with
an unparseable timestamp are also retained; and concretely a row exactly at
the cutoff survives while one a millisecond older is deleted. -/
theorem retention_boundary :
    (∀ (c limit : ℤ) (m : List (String × List SweepRow)),
      List.Forall₂
        (fun p q => p.1 = q.1 ∧ ∀ r, (∀ t, r.timestamp = some t → c ≤ t) →
          q.2.count r = p.2.count r)
        m (deleteFromCollections m (some c) limit).1) ∧
    (∀ (c limit : ℤ) (s : AnalyticsStore) (row : MetricRow),
      c ≤ row.timestamp →
      ((analyticsDeleteOlderThan s (some c) limit).1.rows).count row
        = s.rows.count row) ∧
    deleteFromCollections [("col", [⟨0, some 10⟩, ⟨1, some 9⟩])] (some 10) 50 =
      ([("col", [⟨0, some 10⟩])], 1) := by
  refine ⟨?_, ?_, by decide⟩
  · intro c limit m
    have h := sweepCollections_fresh c (normalizeLimit limit) m 0
    apply List.Forall₂.imp ?_ h
    intro p q hpq
    refine ⟨hpq.1, fun r hr => hpq.2 r ?_⟩
    unfold rowExpired
    cases ht : r.timestamp with
    | none => rfl
    | some t =>
      simp only [decide_eq_false_iff_not, not_lt]
      exact hr t ht
  · intro c limit s row hrow
    exact sweepMetricsRows_count_fresh c (normalizeLimit limit) s.rows 0 row
      (not_lt.mpr hrow)

theorem retention_boundary_witness :
    ((∀ t, (some 10 : Option ℤ) = some t → (10 : ℤ) ≤ t) ∧
      ((deleteFromCollections [("col", [⟨0, some 10⟩, ⟨1, some 9⟩])]
          (some 10) 50).1.head?.getD ("", [])).2.count ⟨0, some 10⟩ =
        ([⟨0, some 10⟩, ⟨1, some 9⟩] : List SweepRow).count ⟨0, some 10⟩) ∧
    ((10 : ℤ) ≤ 11 ∧
      ((analyticsDeleteOlderThan
          { rows := [⟨1, "c", "24h", 11, ⟨emptyWindowMetrics, emptyWindowMetrics,
            emptyWindowMetrics, none, none⟩⟩], nextId := 1 }
          (some 10) 50).1.rows).count
        ⟨1, "c", "24h", 11, ⟨emptyWindowMetrics, emptyWindowMetrics,
          emptyWindowMetrics, none, none⟩⟩ =
      ([⟨1, "c", "24h", 11, ⟨emptyWindowMetrics, emptyWindowMetrics,
          emptyWindowMetrics, none, none⟩⟩] : List MetricRow).count
        ⟨1, "c", "24h", 11, ⟨emptyWindowMetrics, emptyWindowMetrics,
          emptyWindowMetrics, none, none⟩⟩) := by
  constructor
  · refine ⟨by decide, ?_⟩
    have h := retention_boundary.1 10 50 [("col", [⟨0, some 10⟩, ⟨1, some 9⟩])]
    cases h with
    | cons hpq hrest =>
      have := hpq.2 ⟨0, some 10⟩ (by decide)
      simpa using this
  · exact ⟨by decide,
      (retention_boundary.2.1) 10 50
        { rows := [⟨1, "c", "24h", 11, ⟨emptyWindowMetrics, emptyWindowMetrics,
            emptyWindowMetrics, none, none⟩⟩], nextId := 1 }
        ⟨1, "c", "24h", 11, ⟨emptyWindowMetrics, emptyWindowMetrics,
          emptyWindowMetrics, none, none⟩⟩ (by decide)⟩

theorem processTableGo_calls_le {σ : Type} (step : σ → σ × ℤ) (bs : ℤ)
    (fuel : ℕ) (s : σ) (total calls : ℕ) :
    (processTableGo step bs fuel s total calls).2.2 ≤ calls + fuel := by
  induction fuel generalizing s total calls with
  | zero => simp [processTableGo]
  | succ f ih =>
    unfold processTableGo
    split
    · simp only
      omega
    · split
      · simp only
        omega
      · exact le_trans (ih _ _ _) (by omega)

theorem processTableGo_stops {σ : Type} (step : σ → σ × ℤ) (bs : ℤ)
    (hbs : 0 < bs) (k : ℕ) :
    ∀ (fuel : ℕ) (s : σ) (total calls : ℕ),
    (∀ i < k, bs ≤ (normalizeRemoved (step (stepIterate step i s)).2 : ℤ)) →
    ((normalizeRemoved (step (stepIterate step k s)).2 : ℤ) < bs) →
    k + 1 ≤ fuel →
    (processTableGo step bs fuel s total calls).2.2 = calls + k + 1 := by
  induction k with
  | zero =>
    intro fuel s total calls _ hlast hfuel
    match fuel, hfuel with
    | f + 1, _ =>
      unfold processTableGo
      rw [if_pos (Or.inr
        (show ((normalizeRemoved (step s).2 : ℤ)) < bs from hlast))]
  | succ k ih =>
    intro fuel s total calls hbatches hlast hfuel
    match fuel, hfuel with
    | f + 1, hfuel =>
      unfold processTableGo
      have h0 : bs ≤ (normalizeRemoved (step s).2 : ℤ) :=
        hbatches 0 (Nat.succ_pos k)
      have hcond : ¬(bs ≤ 0 ∨
          ((normalizeRemoved (step s).2 : ℤ) < bs)) := by
        push_neg
        exact ⟨hbs, h0⟩
      rw [if_neg hcond]
      have hf : f ≠ 0 := by omega
      rw [if_neg hf]
      have := ih f (step s).1 (total + normalizeRemoved (step s).2) (calls + 1)
        (fun i hi => hbatches (i + 1) (by omega)) hlast (by omega)
      rw [this]
      omega

/-- C9: the per-table deletion loop of the cleanup job stops as soon as a
batch deletes fewer than `batchSize` rows, is hard-capped at
`MAX_BATCH_ITERATIONS = 1000` batch calls, and — concretely — deletes 120
expired rows with `batchSize = 50` in exactly 3 batches. -/
theorem processTable_batching :
    (∀ (σ : Type) (step : σ → σ × ℤ) (bs : ℤ) (s : σ),
      (processTable step bs s).2.2 ≤ MAX_BATCH_ITERATIONS) ∧
    (∀ (σ : Type) (step : σ → σ × ℤ) (bs : ℤ) (s : σ) (k : ℕ),
      0 < bs →
      (∀ i < k, bs ≤ (normalizeRemoved (step (stepIterate step i s)).2 : ℤ)) →
      ((normalizeRemoved (step (stepIterate step k s)).2 : ℤ) < bs) →
      k + 1 ≤ MAX_BATCH_ITERATIONS →
      (processTable step bs s).2.2 = k + 1) ∧
    processTable
        (fun m => ((deleteFromCollections m (some 1) 50).1,
          ((deleteFromCollections m (some 1) 50).2 : ℤ)))
        50 [("col", (List.range 120).map (fun i => ⟨i, some 0⟩))] =
      ([("col", [])], 120, 3) := by
  refine ⟨?_, ?_, by decide⟩
  · intro σ step bs s
    have h := processTableGo_calls_le step bs MAX_BATCH_ITERATIONS s 0 0
    simpa [processTable] using h
  · intro σ step bs s k hbs hbatches hlast hcap
    have h := processTableGo_stops step bs hbs k MAX_BATCH_ITERATIONS s 0 0
      hbatches hlast hcap
    simpa [processTable] using h

theorem processTable_batching_witness :
    (0 : ℤ) < 50 ∧
    (∀ i < 2, (50 : ℤ) ≤
      (normalizeRemoved ((fun m => ((deleteFromCollections m (some 1) 50).1,
          ((deleteFromCollections m (some 1) 50).2 : ℤ)))
        (stepIterate (fun m => ((deleteFromCollections m (some 1) 50).1,
          ((deleteFromCollections m (some 1) 50).2 : ℤ))) i
          [("col", (List.range 120).map (fun i => ⟨i, some 0⟩))])).2 : ℤ)) ∧
    ((normalizeRemoved ((fun m => ((deleteFromCollections m (some 1) 50).1,
          ((deleteFromCollections m (some 1) 50).2 : ℤ)))
        (stepIterate (fun m => ((deleteFromCollections m (some 1) 50).1,
          ((deleteFromCollections m (some 1) 50).2 : ℤ))) 2
          [("col", (List.range 120).map (fun i => ⟨i, some 0⟩))])).2 : ℤ) < 50) ∧
    (2 + 1 ≤ MAX_BATCH_ITERATIONS) ∧
    (processTable
        (fun m => ((deleteFromCollections m (some 1) 50).1,
          ((deleteFromCollections m (some 1) 50).2 : ℤ)))
        50 [("col", (List.range 120).map (fun i => ⟨i, some 0⟩))]).2.2 = 3 :=
  ⟨by decide, by decide, by decide, by decide,
    processTable_batching.2.1 _ _ 50 _ 2 (by decide) (by decide) (by decide)
      (by decide)⟩

theorem sendWithRetryGo_allFail (base : ℤ) :
    ∀ (r a : ℕ),
      sendWithRetryGo (fun _ => false) base a r =
        { attempts := a + r + 1
          delays := (List.range r).map (fun i => base * 2 ^ (a + i))
          ok := false } := by
  intro r
  induction r with
  | zero =>
    intro a
    unfold sendWithRetryGo
    simp
  | succ r ih =>
    intro a
    unfold sendWithRetryGo
    simp only [Bool.false_eq_true, if_false]
    rw [ih (a + 1)]
    have hexp : (fun i => base * 2 ^ (a + 1 + i)) =
        fun i => base * 2 ^ (a + (i + 1)) := by
      funext i
      ring_nf
    have hd : (List.range (r + 1)).map (fun i => base * 2 ^ (a + i)) =
        base * 2 ^ (a + 0) :: (List.range r).map (fun i => base * 2 ^ (a + (i + 1))) := by
      rw [List.range_succ_eq_map, List.map_cons, List.map_map]
      rfl
    rw [hd, ← hexp]
    simp only [RetryTrace.mk.injEq]
    refine ⟨by omega, ?_, trivial⟩
    simp [Nat.add_zero]

theorem sendWithRetryGo_attempts_le (outcomes : ℕ → Bool) (base : ℤ) :
    ∀ (r a : ℕ), (sendWithRetryGo outcomes base a r).attempts ≤ a + r + 1 := by
  intro r
  induction r with
  | zero =>
    intro a
    unfold sendWithRetryGo
    split
    · simp
    · simp
  | succ r ih =>
    intro a
    unfold sendWithRetryGo
    split
    · simp
    · simp only
      exact le_trans (ih (a + 1)) (by omega)

/-- C8: the webhook channel makes at most `maxRetries + 1` POST attempts;
when every attempt fails it makes exactly `maxRetries + 1`, sleeping
`baseBackoff * 2 ^ attempt` before each retry, and then gives up:
`webhookNotifier.send` rethrows the final error, but `notifyAlert` catches
it, so the alert evaluator's evaluation completes normally. -/
theorem webhook_retry_semantics (maxRetries : ℕ) (base : ℤ) :
    (∀ outcomes : ℕ → Bool,
      (sendWithRetry outcomes maxRetries base).attempts ≤ maxRetries + 1) ∧
    (sendWithRetry (fun _ => false) maxRetries base).attempts = maxRetries + 1 ∧
    (sendWithRetry (fun _ => false) maxRetries base).delays =
      (List.range maxRetries).map (fun i => base * 2 ^ i) ∧
    (sendWithRetry (fun _ => false) maxRetries base).ok = false ∧
    webhookNotifierSend (sendWithRetry (fun _ => false) maxRetries base) =
      .error () ∧
    notifyAlert [webhookNotifierSend
      (sendWithRetry (fun _ => false) maxRetries base)] = .ok () := by
  have hall := sendWithRetryGo_allFail base maxRetries 0
  have hsend : webhookNotifierSend (sendWithRetry (fun _ => false) maxRetries base)
      = .error () := by
    unfold webhookNotifierSend sendWithRetry
    rw [hall]
    rfl
  refine ⟨?_, ?_, ?_, ?_, hsend, ?_⟩
  · intro outcomes
    have h := sendWithRetryGo_attempts_le outcomes base maxRetries 0
    simpa [sendWithRetry] using h
  · unfold sendWithRetry
    rw [hall]
    simp
  · unfold sendWithRetry
    rw [hall]
    simp
  · unfold sendWithRetry
    rw [hall]
  · rw [hsend]
    rfl

/-- C1 (the code at the claim's failing input): `dataStore.addListingEvent`
performs no lookup by event id, so re-ingesting the identical payload
appends a second row — after two `ingestListingEvent` calls with the same
`id: "evt-1"` the Event Store holds 2 rows (2 of them with that id), not 1;
only the dirty set is idempotent (the collection appears once). -/
theorem ingest_duplicate_id_appends_second_row :
    (storeGet (ingestListingEvent [] [] "col-1" 1000
        ⟨some "evt-1", none, some 100, some 1⟩).1 "col-1").length = 1 ∧
    (storeGet (ingestListingEvent
        (ingestListingEvent [] [] "col-1" 1000
          ⟨some "evt-1", none, some 100, some 1⟩).1
        (ingestListingEvent [] [] "col-1" 1000
          ⟨some "evt-1", none, some 100, some 1⟩).2
        "col-1" 2000 ⟨some "evt-1", none, some 100, some 1⟩).1
      "col-1").length = 2 ∧
    ((storeGet (ingestListingEvent
        (ingestListingEvent [] [] "col-1" 1000
          ⟨some "evt-1", none, some 100, some 1⟩).1
        (ingestListingEvent [] [] "col-1" 1000
          ⟨some "evt-1", none, some 100, some 1⟩).2
        "col-1" 2000 ⟨some "evt-1", none, some 100, some 1⟩).1
      "col-1").filter (fun e => e.eid = "evt-1")).length = 2 ∧
    (ingestListingEvent
        (ingestListingEvent [] [] "col-1" 1000
          ⟨some "evt-1", none, some 100, some 1⟩).1
        (ingestListingEvent [] [] "col-1" 1000
          ⟨some "evt-1", none, some 100, some 1⟩).2
        "col-1" 2000 ⟨some "evt-1", none, some 100, some 1⟩).2
      = ["col-1"] := by
  decide
